import Mathlib

/-!
Shallow embedding of `src/jobhog.c` (a jobserver token-borrowing client).

Strings are modelled as `List Char` (the bytes of a NUL-terminated C string,
without the terminator).  File-descriptor events, `read`/`write` outcomes and
`pipe`/`fork` success are passed explicitly.  Each definition carries a
comment pointing at the source lines it embeds.
-/

/-- Decimal digit character, as printf renders one digit (ASCII `'0' + n`). -/
def digit (n : Nat) : Char := Char.ofNat (48 + n)

/-- Fueled decimal printer: `decLoop n f` is the decimal text of `n` (empty
for `n = 0`), provided fuel `f > log10 n`.  Together with `decStr` this
models `snprintf(buf, 4, "%u", n)` from jobhog.c line 193 (the digits that
`%u` produces, before any truncation). -/
def decLoop : Nat → Nat → List Char
  | _, 0 => []
  | 0, _ + 1 => []
  | n + 1, f + 1 => decLoop ((n + 1) / 10) f ++ [digit ((n + 1) % 10)]

/-- Decimal rendering of `n` (`%u`): nonempty, no leading zeros. -/
def decStr (n : Nat) : List Char := if n = 0 then [digit 0] else decLoop n (n + 1)

/-- `beginsWith pat s`: `pat` is a prefix of `s` (the comparison that
`strncmp(h, "###", 3) == 0` at jobhog.c line 191 performs, and that `strstr`
performs at each candidate position). -/
def beginsWith : List Char → List Char → Bool
  | [], _ => true
  | _ :: _, [] => false
  | a :: as, b :: bs => a == b && beginsWith as bs

/-- Index of the first occurrence of `pat` in `s`: models `strstr`
(jobhog.c lines 53-55 and 169) returning an offset instead of a pointer. -/
def strstrIdx (pat : List Char) : List Char → Option Nat
  | [] => if beginsWith pat [] then some 0 else none
  | c :: rest =>
    if beginsWith pat (c :: rest) then some 0
    else (strstrIdx pat rest).map (fun n => n + 1)

/-- Index of the first occurrence of character `c`: models `strchr`
(jobhog.c line 58). -/
def strchrIdx (c : Char) : List Char → Option Nat
  | [] => none
  | d :: rest => if d = c then some 0 else (strchrIdx c rest).map (fun n => n + 1)

/-- The placeholder marker `"###"` (jobhog.c line 169). -/
def hashes : List Char := ("###").data

/-- `find_hashes` (jobhog.c lines 165-174): scan the argument vector for the
first argument containing `"###"`; the C function returns a pointer into that
argument, modelled here as `(argument index, offset within the argument)`. -/
def find_hashes : List (List Char) → Option (Nat × Nat)
  | [] => none
  | a :: rest =>
    match strstrIdx hashes a with
    | some i => some (0, i)
    | none => (find_hashes rest).map (fun p => (p.1 + 1, p.2))

/-- Net effect on the argument string of `memcpy(h, buf, p)` followed by
`memmove(h + p, h + 3, len - 3)` (jobhog.c lines 198-203), where `h` points
at offset `i` of the argument: bytes `[i, i+3)` (the marker) are replaced by
`rep` and the rest of the string, including trailing `#`s, is shifted to
stay adjacent.  `p = rep.length ≤ 3` holds on all reachable paths (assert
line 194), so the rewrite fits in the original buffer. -/
def rewriteArg (a : List Char) (i : Nat) (rep : List Char) : List Char :=
  a.take i ++ rep ++ a.drop (i + 3)

/-- The sub-option spelling `"--jobserver-auth="` (jobhog.c line 53). -/
def authPat : List Char := ("--jobserver-auth=").data

/-- The sub-option spelling `"--jobserver-fds="` (jobhog.c line 55). -/
def fdsPat : List Char := ("--jobserver-fds=").data

/-- `sscanf` whitespace skipping before a `%d` conversion. -/
def skipWs : List Char → List Char
  | [] => []
  | c :: rest =>
    if c = ' ' || c = '\t' || c = '\n' || c = '\r' then skipWs rest else c :: rest

/-- Greedy run of decimal digits with accumulated value (the digit-consuming
part of a `%d` conversion). -/
def digitsVal : List Char → Nat → Nat × List Char
  | [], acc => (acc, [])
  | c :: rest, acc =>
    if c.isDigit then digitsVal rest (acc * 10 + (c.toNat - 48))
    else (acc, c :: rest)

/-- One `%d` conversion of `sscanf`: skip whitespace, optional sign, then at
least one digit; fails (matching failure) otherwise. -/
def scanInt (s : List Char) : Option (Int × List Char) :=
  match skipWs s with
  | [] => none
  | c :: rest =>
    if c = '-' then
      match rest with
      | [] => none
      | d :: _ =>
        if d.isDigit then
          let p := digitsVal rest 0
          some (-(p.1 : Int), p.2)
        else none
    else if c = '+' then
      match rest with
      | [] => none
      | d :: _ =>
        if d.isDigit then
          let p := digitsVal rest 0
          some ((p.1 : Int), p.2)
        else none
    else if c.isDigit then
      let p := digitsVal (c :: rest) 0
      some ((p.1 : Int), p.2)
    else none

/-- `sscanf(s, "=%d,%d", &rfd, &wfd) == 2` (jobhog.c line 60): literal `'='`,
an integer, literal `','`, an integer; `some (rfd, wfd)` on success. -/
def scanPair (s : List Char) : Option (Int × Int) :=
  match s with
  | [] => none
  | c :: rest =>
    if c = '=' then
      match scanInt rest with
      | none => none
      | some (a, r1) =>
        match r1 with
        | [] => none
        | c2 :: r2 =>
          if c2 = ',' then
            match scanInt r2 with
            | none => none
            | some (b, _) => some (a, b)
          else none
    else none

/-- `parse_env` (jobhog.c lines 45-63): `env` is `getenv("MAKEFLAGS")`
(`none` when the variable is absent).  Search for `--jobserver-auth=`, then
`--jobserver-fds=`; from the found position, `strchr` locates the `'='` and
`sscanf("=%d,%d")` parses the descriptor pair.  `none` models the C
function's `-1` return ("no channel available"). -/
def parse_env (env : Option (List Char)) : Option (Int × Int) :=
  match env with
  | none => none
  | some e =>
    let found :=
      match strstrIdx authPat e with
      | some idx => some (e.drop idx)
      | none =>
        match strstrIdx fdsPat e with
        | some idx => some (e.drop idx)
        | none => none
    match found with
    | none => none
    | some s =>
      match strchrIdx '=' s with
      | none => none
      | some k => scanPair (s.drop k)

/-- The drain loop of `get_tokens` (jobhog.c lines 147-157).  `trace` lists
the successive results of `read(fd, buf, 8)`, with `0` standing for `r <= 0`
(would-block, or unexpected EOF): `while (tokens < 500)` read a chunk, stop
on `r <= 0`, else `tokens += r`. -/
def drainLoop : Nat → List Nat → Nat
  | tokens, [] => tokens
  | tokens, r :: rs =>
    if 500 ≤ tokens then tokens
    else if r = 0 then tokens
    else drainLoop (tokens + r) rs

/-- Physical consistency of a read trace with `avail` bytes sitting in the
pipe: a nonblocking `read(fd, buf, 8)` on a pipe returns between 1 and
`min 8 avail` bytes while data remains, and `r <= 0` (modelled `0`) exactly
when the pipe is empty.  Entries after the terminating `0` are never
consumed and are unconstrained. -/
def validReads : Nat → List Nat → Bool
  | _, [] => false
  | 0, r :: _ => r == 0
  | avail + 1, r :: rs =>
    decide (1 ≤ r) && decide (r ≤ 8) && decide (r ≤ avail + 1) &&
      validReads (avail + 1 - r) rs

/-- Outcome of one `write(wfd, t, w)` call in `put_tokens`: `ok r` is a
successful write of `r` bytes, `again` is `-1` with `errno` EAGAIN/EINTR,
`err` is `-1` with any other `errno`. -/
inductive WriteRes
  | ok (r : Nat)
  | again
  | err
deriving DecidableEq

/-- `put_tokens` (jobhog.c lines 65-80), driven by the trace of `write`
outcomes.  Returns `(total bytes written, chunk sizes requested, finished)`:
`while (tokens)` request `w = min(tokens, 8)` bytes; on EAGAIN/EINTR retry;
on any other error return (`finished = false`, remaining tokens dropped); on
success `tokens -= r`.  `finished = false` with an exhausted trace models a
run we did not observe to completion. -/
def put_tokens : List WriteRes → Nat → Nat × List Nat × Bool
  | _, 0 => (0, [], true)
  | [], _ + 1 => (0, [], false)
  | .again :: os, t + 1 =>
    ((put_tokens os (t + 1)).1, min (t + 1) 8 :: (put_tokens os (t + 1)).2.1,
      (put_tokens os (t + 1)).2.2)
  | .err :: _, t + 1 => (0, [min (t + 1) 8], false)
  | .ok r :: os, t + 1 =>
    (r + (put_tokens os (t + 1 - r)).1, min (t + 1) 8 :: (put_tokens os (t + 1 - r)).2.1,
      (put_tokens os (t + 1 - r)).2.2)

/-- Physical consistency of a write trace: a successful `write` of a
requested chunk `w = min(tokens, 8) ≥ 1` wrote between 1 and `w` bytes.
Entries after the loop's end are unconstrained. -/
def validWrites : List WriteRes → Nat → Bool
  | _, 0 => true
  | [], _ + 1 => false
  | .again :: os, t + 1 => validWrites os (t + 1)
  | .err :: _, _ + 1 => true
  | .ok r :: os, t + 1 =>
    decide (1 ≤ r) && decide (r ≤ min (t + 1) 8) && validWrites os (t + 1 - r)

/-- Outcome of one blocking `read(pipefd[0], &d, 1)` in the watcher child
(jobhog.c line 103): `err` is a negative return, `eof` is `0` (all write
ends closed), `data` is `1` (a stray byte arrived on the auxiliary pipe). -/
inductive ReadRes
  | err
  | eof
  | data
deriving DecidableEq

/-- The watcher's wait loop `while (read(pipefd[0], &d, 1) < 0);`
(jobhog.c lines 103-104): retry while the read fails, exit the loop at the
first non-negative return.  `true` means the loop exited (so `put_tokens`
runs next); `false` means every observed read failed and the watcher is
still waiting. -/
def wait_loop : List ReadRes → Bool
  | [] => false
  | .err :: rs => wait_loop rs
  | .eof :: _ => true
  | .data :: _ => true

/-- The first read outcome that is not a failure — the outcome that actually
releases the watcher's wait loop. -/
def firstNonErr : List ReadRes → Option ReadRes
  | [] => none
  | .err :: rs => firstNonErr rs
  | .eof :: _ => some .eof
  | .data :: _ => some .data

/-- The watcher child's whole life (jobhog.c lines 99-107): close the aux
write end, wait for a non-failing read, then `put_tokens(tokens)` and
`_exit(EX_OK)`.  Result: `(bytes written back, chunks requested, finished)`;
all zero while the wait loop has not exited. -/
def watcher_run (reads : List ReadRes) (writes : List WriteRes) (tokens : Nat) :
    Nat × List Nat × Bool :=
  if wait_loop reads then put_tokens writes tokens else (0, [], false)

/-- Observable effects of `create_child` (jobhog.c lines 82-111).  Fields, in
order: `ret` (the value returned to `get_tokens`), `watcherSpawned`,
`fatal` (whether the path aborts the program — it never does),
`parentPutBytes`/`parentPutChunks`/`parentPutFinished` (the synchronous
`put_tokens` performed by the calling process on the degraded paths),
`parentClosedAuxRead`/`parentClosedAuxWrite` (the parent branch's `close`
calls on the auxiliary pipe after a successful fork),
`watcherClosedAuxWrite`/`watcherClosedAuxRead` (the child branch's). -/
structure CCResult where
  ret : Nat
  watcherSpawned : Bool
  fatal : Bool
  parentPutBytes : Nat
  parentPutChunks : List Nat
  parentPutFinished : Bool
  parentClosedAuxRead : Bool
  parentClosedAuxWrite : Bool
  watcherClosedAuxWrite : Bool
  watcherClosedAuxRead : Bool

/-- `create_child` (jobhog.c lines 82-111).
`pipe` fails (line 88): `put_tokens(tokens)` synchronously, return 0.
`fork` fails (line 93): close both pipe ends, `put_tokens(tokens)`, return 0.
Fork succeeds: the child closes `pipefd[1]` (the aux write end, line 102)
and keeps `pipefd[0]`; the parent closes `pipefd[0]` (the aux READ end,
line 109) and keeps `pipefd[1]`; return `tokens`. -/
def create_child (tokens : Nat) (pipeOk forkOk : Bool) (writes : List WriteRes) :
    CCResult :=
  if pipeOk = false then
    ⟨0, false, false, (put_tokens writes tokens).1, (put_tokens writes tokens).2.1,
      (put_tokens writes tokens).2.2, false, false, false, false⟩
  else if forkOk = false then
    ⟨0, false, false, (put_tokens writes tokens).1, (put_tokens writes tokens).2.1,
      (put_tokens writes tokens).2.2, true, true, false, false⟩
  else
    ⟨tokens, true, false, 0, [], true, true, false, true, false⟩

/-- `EX_USAGE` from sysexits.h (used at jobhog.c lines 184, 186). -/
def EX_USAGE : Nat := 64

/-- `EX_OSERR` from sysexits.h (used at jobhog.c line 211). -/
def EX_OSERR : Nat := 71

/-- POSIX semantics of the watcher's blocking 1-byte read on the (empty)
auxiliary pipe: it returns end-of-stream exactly when no process holds the
write end any longer; while some holder remains it stays blocked (`none` =
no outcome yet).  Modelled from POSIX pipe semantics, which are outside the
C source. -/
def blockedReadRes (writeHolders : Nat) : Option ReadRes :=
  if writeHolders = 0 then some .eof else none

/-- Observable effects of the launch-failure path, fields in order:
`exitCode` of the main process, `mainReturnedBytes` (tokens the main process
itself writes back on this path), `watcherRead` (the outcome of the
watcher's blocking read once the main process has exited), `watcherBytes`
(tokens the watcher then writes back). -/
structure ExecFailRun where
  exitCode : Nat
  mainReturnedBytes : Nat
  watcherRead : Option ReadRes
  watcherBytes : Nat

/-- The system's behaviour when `execvp` fails after `tokens > 0` were
drained (jobhog.c lines 210-211), assembled from the source and POSIX
process semantics: after the fork the auxiliary write end has two holders
(parent and watcher); the watcher closes its copy (line 102); `error(EX_OSERR,
errno, ...)` exits the main process (line 211) and process exit closes its
remaining descriptors, including the aux write end — `main` performs no
`put_tokens` on this path.  The watcher's blocking read then yields
end-of-stream, its wait loop exits, and it runs `put_tokens(tokens)`. -/
def exec_fail_run (tokens : Nat) (writes : List WriteRes) : ExecFailRun :=
  let holdersAfterFork : Nat := 2
  let holdersAfterWatcherClose : Nat := holdersAfterFork - 1
  let holdersAfterMainExit : Nat := holdersAfterWatcherClose - 1
  let rd := blockedReadRes holdersAfterMainExit
  ⟨EX_OSERR, 0, rd,
    match rd with
    | some r => if wait_loop [r] then (put_tokens writes tokens).1 else 0
    | none => 0⟩

/-- Observable effects of one run of `main` (jobhog.c lines 176-214), fields
in order: `exitCode` (`some code` when the process exits by itself, `none`
when the image is replaced by `execvp`), `drained` (tokens taken off the
jobserver pipe), `tokensHeld` (the value of `tokens` after `get_tokens`,
used for the substitution), `forked`, `envUnset` (whether
`unsetenv("MAKEFLAGS")` ran), `parentPutBytes` (bytes written back
synchronously on the degraded paths), `replacement` (the text substituted
for the marker), `rewrittenArg` (the marker argument after rewriting). -/
structure MainRun where
  exitCode : Option Nat
  drained : Nat
  tokensHeld : Nat
  forked : Bool
  envUnset : Bool
  parentPutBytes : Nat
  replacement : List Char
  rewrittenArg : Option (List Char)

/-- The `MainRun` of the two usage-error paths (jobhog.c lines 183-186):
`error(EX_USAGE, ...)` exits before `get_tokens`, before any fork and before
`unsetenv`. -/
def usageRun : MainRun := ⟨some EX_USAGE, 0, 0, false, false, 0, [], none⟩

/-- `main` (jobhog.c lines 176-214).  Inputs beyond `argv`: `env` is
`getenv("MAKEFLAGS")`; `channelReady` models the `fcntl`/reopen steps of
`get_tokens` succeeding (lines 123-145); `reads` is the drain loop's read
trace; `pipeOk`/`forkOk`/`writes` feed `create_child`; `execOk` is whether
`execvp` succeeds.  Control flow: usage checks, `get_tokens` (parse the
environment, drain, and hand off to `create_child` only when tokens were
drained, lines 160-161), the assertions, the placeholder rewrite,
`unsetenv`, `execvp`.  (Named `main_run` because Lean reserves `main` for
entry points.) -/
def main_run (argv : List (List Char)) (env : Option (List Char)) (channelReady : Bool)
    (reads : List Nat) (pipeOk forkOk : Bool) (writes : List WriteRes)
    (execOk : Bool) : MainRun :=
  if argv.length < 2 then usageRun
  else if argv.length < 3 then usageRun
  else
    match find_hashes (argv.drop 2) with
    | none => usageRun
    | some (j, i) =>
      let drained :=
        match parse_env env with
        | none => 0
        | some _ => if channelReady then drainLoop 0 reads else 0
      let after :=
        if drained = 0 then (0, false, 0)
        else
          let cc := create_child drained pipeOk forkOk writes
          (cc.ret, cc.watcherSpawned, cc.parentPutBytes)
      let held := after.1
      let rep := decStr (held + 1)
      let a := (argv.drop 2).getD j []
      ⟨if execOk then none else some EX_OSERR, drained, held, after.2.1, true,
        after.2.2, rep, some (rewriteArg a i rep)⟩

example : decStr 13 = [digit 1, digit 3] := by decide
example : decStr 1 = [digit 1] := by decide
example : strstrIdx hashes (("-j###x").data) = some 2 := by decide
example : find_hashes [("-q").data, ("-j###").data] = some (1, 2) := by decide
example : parse_env (some (("--jobserver-auth=3,4").data)) = some (3, 4) := by decide
example : parse_env (some (("--jobserver-auth=abc").data)) = none := by decide
example : parse_env (some (("--jobserver-fds=10,11 -k").data)) = some (10, 11) := by
  decide
example : drainLoop 0 [8, 5, 0] = 13 := by decide
example : validReads 13 [8, 5, 0] = true := by decide
example : (put_tokens [WriteRes.again, WriteRes.ok 8, WriteRes.ok 5] 13).1 = 13 := by
  decide

/-! ### Helper lemmas -/

theorem decLoop_zero : ∀ f, decLoop 0 f = [] := by
  intro f; cases f <;> rfl

theorem decLoop_len1 : ∀ (f n : Nat), n < 10 → (decLoop n f).length ≤ 1 := by
  intro f
  cases f with
  | zero => intro n _; simp [decLoop]
  | succ f =>
    intro n hn
    cases n with
    | zero => simp [decLoop]
    | succ m =>
      have h10 : (m + 1) / 10 = 0 := Nat.div_eq_of_lt hn
      simp [decLoop, h10, decLoop_zero]

theorem decLoop_len2 : ∀ (f n : Nat), n < 100 → (decLoop n f).length ≤ 2 := by
  intro f
  cases f with
  | zero => intro n _; simp [decLoop]
  | succ f =>
    intro n hn
    cases n with
    | zero => simp [decLoop]
    | succ m =>
      have hdiv : (m + 1) / 10 < 10 := by omega
      have := decLoop_len1 f ((m + 1) / 10) hdiv
      simp [decLoop]
      omega

theorem decLoop_len3 : ∀ (f n : Nat), n < 1000 → (decLoop n f).length ≤ 3 := by
  intro f
  cases f with
  | zero => intro n _; simp [decLoop]
  | succ f =>
    intro n hn
    cases n with
    | zero => simp [decLoop]
    | succ m =>
      have hdiv : (m + 1) / 10 < 100 := by omega
      have := decLoop_len2 f ((m + 1) / 10) hdiv
      simp [decLoop]
      omega

theorem decStr_len_le (n : Nat) (h : n < 1000) : (decStr n).length ≤ 3 := by
  unfold decStr
  by_cases h0 : n = 0
  · simp [h0]
  · simp [h0]
    exact decLoop_len3 (n + 1) n h

theorem beginsWith_length : ∀ (p s : List Char), beginsWith p s = true →
    p.length ≤ s.length := by
  intro p
  induction p with
  | nil => intro s _; simp
  | cons a as ih =>
    intro s hs
    cases s with
    | nil => simp [beginsWith] at hs
    | cons b bs =>
      simp [beginsWith] at hs
      have := ih bs hs.2
      simp
      omega

theorem strstrIdx_sound : ∀ (p s : List Char) (i : Nat), strstrIdx p s = some i →
    beginsWith p (s.drop i) = true := by
  intro p s
  induction s with
  | nil =>
    intro i h
    simp [strstrIdx] at h
    rcases h with ⟨hb, hi⟩
    simp [← hi, hb]
  | cons c rest ih =>
    intro i h
    by_cases hb : beginsWith p (c :: rest) = true
    · simp [strstrIdx, hb] at h
      simp [← h, hb]
    · simp [strstrIdx, hb] at h
      rcases h with ⟨i0, h0, hi⟩
      have := ih i0 h0
      simp [← hi, List.drop_succ_cons]
      exact this

theorem strstrIdx_first : ∀ (p s : List Char) (i : Nat), strstrIdx p s = some i →
    ∀ j, j < i → beginsWith p (s.drop j) = false := by
  intro p s
  induction s with
  | nil =>
    intro i h j hj
    simp [strstrIdx] at h
    omega
  | cons c rest ih =>
    intro i h j hj
    by_cases hb : beginsWith p (c :: rest) = true
    · simp [strstrIdx, hb] at h
      omega
    · simp [strstrIdx, hb] at h
      rcases h with ⟨i0, h0, hi⟩
      cases j with
      | zero =>
        simpa using (Bool.eq_false_iff.mpr hb)
      | succ j0 =>
        have hj0 : j0 < i0 := by omega
        have := ih i0 h0 j0 hj0
        simpa [List.drop_succ_cons] using this

theorem find_hashes_lt : ∀ (args : List (List Char)) (j i : Nat),
    find_hashes args = some (j, i) → j < args.length := by
  intro args
  induction args with
  | nil => intro j i h; simp [find_hashes] at h
  | cons a rest ih =>
    intro j i h
    unfold find_hashes at h
    cases hs : strstrIdx hashes a with
    | some i0 =>
      rw [hs] at h
      simp at h
      simp [← h.1]
    | none =>
      rw [hs] at h
      cases hf : find_hashes rest with
      | none => rw [hf] at h; simp at h
      | some p =>
        rw [hf] at h
        simp at h
        have hrec := ih p.1 p.2 (by rw [hf])
        simp [← h.1]
        omega

theorem find_hashes_at : ∀ (args : List (List Char)) (j i : Nat),
    find_hashes args = some (j, i) → strstrIdx hashes (args.getD j []) = some i := by
  intro args
  induction args with
  | nil => intro j i h; simp [find_hashes] at h
  | cons a rest ih =>
    intro j i h
    unfold find_hashes at h
    cases hs : strstrIdx hashes a with
    | some i0 =>
      rw [hs] at h
      simp at h
      rw [← h.1, ← h.2]
      simpa using hs
    | none =>
      rw [hs] at h
      cases hf : find_hashes rest with
      | none => rw [hf] at h; simp at h
      | some p =>
        rw [hf] at h
        simp at h
        have hrec := ih p.1 p.2 (by rw [hf])
        rw [← h.1, ← h.2]
        simpa using hrec

theorem find_hashes_before : ∀ (args : List (List Char)) (j i : Nat),
    find_hashes args = some (j, i) →
    ∀ k, k < j → strstrIdx hashes (args.getD k []) = none := by
  intro args
  induction args with
  | nil => intro j i h; simp [find_hashes] at h
  | cons a rest ih =>
    intro j i h k hk
    unfold find_hashes at h
    cases hs : strstrIdx hashes a with
    | some i0 =>
      rw [hs] at h
      simp at h
      omega
    | none =>
      rw [hs] at h
      cases hf : find_hashes rest with
      | none => rw [hf] at h; simp at h
      | some p =>
        rw [hf] at h
        simp at h
        cases k with
        | zero => simpa using hs
        | succ k0 =>
          have hk0 : k0 < p.1 := by omega
          have hrec := ih p.1 p.2 (by rw [hf]) k0 hk0
          simpa using hrec

theorem marker_bound (a : List Char) (i : Nat)
    (h : beginsWith hashes (a.drop i) = true) : i + 3 ≤ a.length := by
  have hl := beginsWith_length hashes (a.drop i) h
  have h3 : hashes.length = 3 := by decide
  rw [h3] at hl
  simp [List.length_drop] at hl
  omega

theorem rewriteArg_take (a : List Char) (i : Nat) (rep : List Char)
    (h : i + 3 ≤ a.length) : (rewriteArg a i rep).take i = a.take i := by
  unfold rewriteArg
  have hlen : (a.take i).length = i := by
    simp [List.length_take]
    omega
  rw [List.append_assoc, List.take_append_eq_append_take, hlen]
  simp [List.take_take]

theorem rewriteArg_len (a : List Char) (i : Nat) (rep : List Char)
    (h : i + 3 ≤ a.length) :
    (rewriteArg a i rep).length + 3 = a.length + rep.length := by
  unfold rewriteArg
  simp [List.length_append, List.length_take, List.length_drop]
  omega

theorem rewriteArg_drop (a : List Char) (i : Nat) (rep : List Char)
    (h : i + 3 ≤ a.length) :
    (rewriteArg a i rep).drop (i + rep.length) = a.drop (i + 3) := by
  unfold rewriteArg
  apply List.drop_left'
  simp [List.length_append, List.length_take]
  omega

theorem rewriteArg_rep (a : List Char) (i : Nat) (rep : List Char)
    (h : i + 3 ≤ a.length) :
    ((rewriteArg a i rep).drop i).take rep.length = rep := by
  unfold rewriteArg
  rw [List.append_assoc]
  have hd : (a.take i ++ (rep ++ a.drop (i + 3))).drop i = rep ++ a.drop (i + 3) := by
    apply List.drop_left'
    simp [List.length_take]
    omega
  rw [hd, List.take_left]

theorem drainLoop_le_507 : ∀ (rs : List Nat) (avail tokens : Nat),
    validReads avail rs = true → tokens ≤ 507 → drainLoop tokens rs ≤ 507 := by
  intro rs
  induction rs with
  | nil => intro avail tokens hv _; simp [validReads] at hv
  | cons r rest ih =>
    intro avail tokens hv ht
    unfold drainLoop
    by_cases h5 : 500 ≤ tokens
    · rw [if_pos h5]; exact ht
    · rw [if_neg h5]
      by_cases hr : r = 0
      · rw [if_pos hr]; exact ht
      · rw [if_neg hr]
        cases avail with
        | zero =>
          simp [validReads] at hv
          exact absurd hv hr
        | succ av =>
          simp [validReads] at hv
          obtain ⟨⟨⟨h1, h8⟩, hle⟩, hrest⟩ := hv
          exact ih (av + 1 - r) (tokens + r) hrest (by omega)

theorem drainLoop_exact : ∀ (rs : List Nat) (avail tokens : Nat),
    validReads avail rs = true → tokens + avail ≤ 500 →
    drainLoop tokens rs = tokens + avail := by
  intro rs
  induction rs with
  | nil => intro avail tokens hv _; simp [validReads] at hv
  | cons r rest ih =>
    intro avail tokens hv ht
    unfold drainLoop
    cases avail with
    | zero =>
      simp [validReads] at hv
      by_cases h5 : 500 ≤ tokens
      · rw [if_pos h5]; omega
      · rw [if_neg h5, if_pos hv]; omega
    | succ av =>
      simp [validReads] at hv
      obtain ⟨⟨⟨h1, h8⟩, hle⟩, hrest⟩ := hv
      have h5 : ¬ 500 ≤ tokens := by omega
      have hr : ¬ r = 0 := by omega
      rw [if_neg h5, if_neg hr]
      have := ih (av + 1 - r) (tokens + r) hrest (by omega)
      rw [this]
      omega

theorem put_tokens_exact : ∀ (ws : List WriteRes) (t : Nat),
    validWrites ws t = true → (put_tokens ws t).2.2 = true →
    (put_tokens ws t).1 = t := by
  intro ws
  induction ws with
  | nil =>
    intro t hv hf
    cases t with
    | zero => simp [put_tokens]
    | succ t0 => simp [put_tokens] at hf
  | cons o os ih =>
    intro t hv hf
    cases t with
    | zero => simp [put_tokens]
    | succ t0 =>
      cases o with
      | again =>
        simp [validWrites] at hv
        simp [put_tokens] at hf ⊢
        exact ih (t0 + 1) hv hf
      | err => simp [put_tokens] at hf
      | ok r =>
        simp [validWrites] at hv
        obtain ⟨⟨h1, hr, h8⟩, hrest⟩ := hv
        simp [put_tokens] at hf ⊢
        have := ih (t0 + 1 - r) hrest hf
        rw [this]
        omega

theorem put_tokens_chunks_le : ∀ (ws : List WriteRes) (t : Nat),
    ∀ w ∈ (put_tokens ws t).2.1, w ≤ 8 := by
  intro ws
  induction ws with
  | nil =>
    intro t w hw
    cases t with
    | zero => simp [put_tokens] at hw
    | succ t0 => simp [put_tokens] at hw
  | cons o os ih =>
    intro t w hw
    cases t with
    | zero => simp [put_tokens] at hw
    | succ t0 =>
      cases o with
      | again =>
        simp [put_tokens] at hw
        rcases hw with hw | hw
        · rw [hw]; exact min_le_right _ _
        · exact ih (t0 + 1) w hw
      | err =>
        simp [put_tokens] at hw
        rw [hw]; exact min_le_right _ _
      | ok r =>
        simp [put_tokens] at hw
        rcases hw with hw | hw
        · rw [hw]; exact min_le_right _ _
        · exact ih (t0 + 1 - r) w hw

theorem put_tokens_again_step (ws : List WriteRes) (t : Nat) (ht : 0 < t) :
    put_tokens (WriteRes.again :: ws) t =
      ((put_tokens ws t).1, min t 8 :: (put_tokens ws t).2.1,
        (put_tokens ws t).2.2) := by
  cases t with
  | zero => omega
  | succ t0 => rfl

theorem wait_loop_iff : ∀ rs, wait_loop rs = true ↔ (firstNonErr rs).isSome = true := by
  intro rs
  induction rs with
  | nil => simp [wait_loop, firstNonErr]
  | cons r rest ih =>
    cases r with
    | err => simpa [wait_loop, firstNonErr] using ih
    | eof => simp [wait_loop, firstNonErr]
    | data => simp [wait_loop, firstNonErr]

/-! ### Claim theorems -/

/-- C1: for every drained token count `t > 0`, when the auxiliary pipe and
fork succeed the Watcher child is spawned, and — provided its wait loop was
released and no hard I/O failure cut the return write short — it writes
exactly `t` bytes back to the orchestrator's write endpoint over its
lifetime (tokens neither fabricated nor dropped), the writes are chunked at
most 8 bytes at a time, and an EINTR/EAGAIN outcome is retried rather than
terminating the loop. -/
theorem c1_watcher_returns_exact_tokens (t : Nat) (ht : 0 < t)
    (reads : List ReadRes) (writes : List WriteRes)
    (hrel : wait_loop reads = true)
    (hv : validWrites writes t = true)
    (hfin : (watcher_run reads writes t).2.2 = true) :
    (create_child t true true writes).watcherSpawned = true ∧
    (watcher_run reads writes t).1 = t ∧
    (∀ w ∈ (watcher_run reads writes t).2.1, w ≤ 8) ∧
    put_tokens (WriteRes.again :: writes) t =
      ((put_tokens writes t).1, min t 8 :: (put_tokens writes t).2.1,
        (put_tokens writes t).2.2) := by
  refine ⟨by simp [create_child], ?_, ?_, put_tokens_again_step writes t ht⟩
  · unfold watcher_run at hfin ⊢
    rw [if_pos hrel] at hfin ⊢
    exact put_tokens_exact writes t hv hfin
  · intro w hw
    unfold watcher_run at hw
    rw [if_pos hrel] at hw
    exact put_tokens_chunks_le writes t w hw

theorem c1_witness :
    (0 < 13 ∧ wait_loop [ReadRes.eof] = true ∧
      validWrites [WriteRes.ok 8, WriteRes.ok 5] 13 = true ∧
      (watcher_run [ReadRes.eof] [WriteRes.ok 8, WriteRes.ok 5] 13).2.2 = true) ∧
    ((create_child 13 true true [WriteRes.ok 8, WriteRes.ok 5]).watcherSpawned = true ∧
      (watcher_run [ReadRes.eof] [WriteRes.ok 8, WriteRes.ok 5] 13).1 = 13 ∧
      (∀ w ∈ (watcher_run [ReadRes.eof] [WriteRes.ok 8, WriteRes.ok 5] 13).2.1, w ≤ 8) ∧
      put_tokens (WriteRes.again :: [WriteRes.ok 8, WriteRes.ok 5]) 13 =
        ((put_tokens [WriteRes.ok 8, WriteRes.ok 5] 13).1,
          min 13 8 :: (put_tokens [WriteRes.ok 8, WriteRes.ok 5] 13).2.1,
          (put_tokens [WriteRes.ok 8, WriteRes.ok 5] 13).2.2)) :=
  ⟨⟨by decide, by decide, by decide, by decide⟩,
    c1_watcher_returns_exact_tokens 13 (by decide) [ReadRes.eof]
      [WriteRes.ok 8, WriteRes.ok 5] (by decide) (by decide) (by decide)⟩

/-- C2 counterexample: with `t = 501` bytes available and the physically
valid read trace `[8 × 62, 5, 0]` the drain loop removes 501 tokens — not
`min 501 500 = 500` — so the drained count does exceed 500 (the ceiling is
checked only before a read, each of which may add up to 8). -/
theorem c2_counterexample :
    validReads 501 (List.replicate 62 8 ++ [5, 0]) = true ∧
    drainLoop 0 (List.replicate 62 8 ++ [5, 0]) = 501 ∧
    drainLoop 0 (List.replicate 62 8 ++ [5, 0]) ≠ min 501 500 ∧
    ¬ drainLoop 0 (List.replicate 62 8 ++ [5, 0]) ≤ 500 := by decide

/-- C2 (amended): for every number `t` of token bytes available on the read
endpoint and every physically consistent read trace, the drain loop removes
exactly `t` tokens when `t ≤ 500` (stopping at would-block/zero reads or at
the 500 ceiling), and in general the drained count never exceeds 507. -/
theorem c2_drainer_count (t : Nat) (rs : List Nat)
    (hv : validReads t rs = true) :
    (t ≤ 500 → drainLoop 0 rs = t) ∧ drainLoop 0 rs ≤ 507 := by
  constructor
  · intro h5
    simpa using drainLoop_exact rs t 0 hv (by omega)
  · exact drainLoop_le_507 rs t 0 hv (by omega)

theorem c2_witness :
    validReads 13 [8, 5, 0] = true ∧
    ((13 ≤ 500 → drainLoop 0 [8, 5, 0] = 13) ∧ drainLoop 0 [8, 5, 0] ≤ 507) :=
  ⟨by decide, c2_drainer_count 13 [8, 5, 0] (by decide)⟩

/-- C3 counterexample: with 1 drained token and `execvp` failing, the system
still returns 1 byte to the orchestrator — the Watcher is released by the
EOF caused by the failed main process's exit — refuting "the tokens already
drained are never returned to the orchestrator in that path". -/
theorem c3_counterexample :
    (exec_fail_run 1 [WriteRes.ok 1]).exitCode = EX_OSERR ∧
    (exec_fail_run 1 [WriteRes.ok 1]).mainReturnedBytes +
        (exec_fail_run 1 [WriteRes.ok 1]).watcherBytes = 1 ∧
    ¬ ((exec_fail_run 1 [WriteRes.ok 1]).mainReturnedBytes +
        (exec_fail_run 1 [WriteRes.ok 1]).watcherBytes = 0) := by decide

/-- C3 (amended): if the target command cannot be executed, the program
exits with the OS-error exit code `EX_OSERR` and the main process itself
returns no tokens on that path; the drained tokens are nevertheless
returned by the Watcher, which observes end-of-stream once the failed main
process exits (closing the last auxiliary write end) and then writes the
full count back. -/
theorem c3_exec_fail_behaviour (t : Nat) (writes : List WriteRes)
    (hv : validWrites writes t = true)
    (hfin : (put_tokens writes t).2.2 = true) :
    (exec_fail_run t writes).exitCode = EX_OSERR ∧
    (exec_fail_run t writes).mainReturnedBytes = 0 ∧
    (exec_fail_run t writes).watcherRead = some ReadRes.eof ∧
    (exec_fail_run t writes).watcherBytes = t := by
  refine ⟨rfl, rfl, rfl, ?_⟩
  have h1 : (exec_fail_run t writes).watcherBytes = (put_tokens writes t).1 := rfl
  rw [h1]
  exact put_tokens_exact writes t hv hfin

theorem c3_witness :
    (validWrites [WriteRes.ok 2] 2 = true ∧ (put_tokens [WriteRes.ok 2] 2).2.2 = true) ∧
    ((exec_fail_run 2 [WriteRes.ok 2]).exitCode = EX_OSERR ∧
      (exec_fail_run 2 [WriteRes.ok 2]).mainReturnedBytes = 0 ∧
      (exec_fail_run 2 [WriteRes.ok 2]).watcherRead = some ReadRes.eof ∧
      (exec_fail_run 2 [WriteRes.ok 2]).watcherBytes = 2) :=
  ⟨⟨by decide, by decide⟩,
    c3_exec_fail_behaviour 2 [WriteRes.ok 2] (by decide) (by decide)⟩

/-- C4 counterexample: after a successful pipe and fork, the parent branch
does NOT close its copy of the auxiliary write end (it closes the read end
and keeps the write end open for inheritance into the exec'd image), so
the claimed close discipline is false at this concrete input. -/
theorem c4_counterexample :
    (create_child 1 true true []).parentClosedAuxWrite = false ∧
    ¬ ((create_child 1 true true []).parentClosedAuxWrite = true ∧
        (create_child 1 true true []).watcherClosedAuxWrite = true ∧
        (create_child 1 true true []).watcherClosedAuxRead = false) := by decide

/-- C4 (amended): immediately after the fork that creates the Watcher, the
parent branch closes its copy of the auxiliary READ end and keeps the write
end open (for inheritance into the exec'd target), while the child branch
closes the auxiliary write end and keeps the auxiliary read end open. -/
theorem c4_fork_fd_discipline (t : Nat) (writes : List WriteRes) :
    (create_child t true true writes).parentClosedAuxRead = true ∧
    (create_child t true true writes).parentClosedAuxWrite = false ∧
    (create_child t true true writes).watcherClosedAuxWrite = true ∧
    (create_child t true true writes).watcherClosedAuxRead = false := by
  simp [create_child]

/-- C5 counterexample: a run whose only auxiliary-pipe read outcome is a
stray data byte releases the wait loop just as EOF would, so the return
write is not performed *only* upon a read indicating end-of-stream. -/
theorem c5_counterexample :
    wait_loop [ReadRes.data] = true ∧
    firstNonErr [ReadRes.data] ≠ some ReadRes.eof := by decide

/-- C5 (amended): the Watcher keeps retrying failing reads of the auxiliary
read end and performs the return write exactly upon the first read that
does not fail — which is end-of-stream once every holder of the auxiliary
write end has released it, but would equally be a stray byte written into
the auxiliary pipe; while no read has succeeded, nothing is written. -/
theorem c5_wait_release (t : Nat) (reads : List ReadRes) (writes : List WriteRes) :
    (wait_loop reads = true ↔ (firstNonErr reads).isSome = true) ∧
    (wait_loop reads = false → watcher_run reads writes t = (0, [], false)) := by
  refine ⟨wait_loop_iff reads, ?_⟩
  intro h
  simp [watcher_run, h]

theorem c5_witness :
    wait_loop [ReadRes.err, ReadRes.err] = false ∧
    ((wait_loop [ReadRes.err, ReadRes.err] = true ↔
        (firstNonErr [ReadRes.err, ReadRes.err]).isSome = true) ∧
      (wait_loop [ReadRes.err, ReadRes.err] = false →
        watcher_run [ReadRes.err, ReadRes.err] [WriteRes.ok 1] 1 = (0, [], false))) :=
  ⟨by decide, c5_wait_release 1 [ReadRes.err, ReadRes.err] [WriteRes.ok 1]⟩

/-- C6: the placeholder rewriter replaces the first 3-character `###` run in
the first argument (after the command name) containing one with the decimal
text of `TokenCount + 1`: no earlier argument contains the marker, no
earlier offset of the chosen argument carries it, the marker really sits at
the found offset, the prefix before it and every byte after it — including
further literal `#`s — are preserved verbatim in content and order, the
replacement text lands at the marker's position, and the argument's length
changes by exactly `rep.length - 3`. -/
theorem c6_rewriter (args : List (List Char)) (j i t : Nat)
    (hf : find_hashes args = some (j, i)) :
    (∀ k, k < j → strstrIdx hashes (args.getD k []) = none) ∧
    (∀ j2, j2 < i → beginsWith hashes ((args.getD j []).drop j2) = false) ∧
    beginsWith hashes ((args.getD j []).drop i) = true ∧
    (rewriteArg (args.getD j []) i (decStr (t + 1))).take i =
      (args.getD j []).take i ∧
    ((rewriteArg (args.getD j []) i (decStr (t + 1))).drop i).take
        (decStr (t + 1)).length = decStr (t + 1) ∧
    (rewriteArg (args.getD j []) i (decStr (t + 1))).length + 3 =
      (args.getD j []).length + (decStr (t + 1)).length ∧
    (rewriteArg (args.getD j []) i (decStr (t + 1))).drop
        (i + (decStr (t + 1)).length) = (args.getD j []).drop (i + 3) := by
  have hat := find_hashes_at args j i hf
  have hbw := strstrIdx_sound hashes (args.getD j []) i hat
  have hb := marker_bound (args.getD j []) i hbw
  exact ⟨find_hashes_before args j i hf,
    strstrIdx_first hashes (args.getD j []) i hat, hbw,
    rewriteArg_take _ _ _ hb, rewriteArg_rep _ _ _ hb,
    rewriteArg_len _ _ _ hb, rewriteArg_drop _ _ _ hb⟩

theorem c6_witness :
    find_hashes [("-q").data, ("-j###x#").data] = some (1, 2) ∧
    ((∀ k, k < 1 →
        strstrIdx hashes ([("-q").data, ("-j###x#").data].getD k []) = none) ∧
      (∀ j2, j2 < 2 → beginsWith hashes
        (([("-q").data, ("-j###x#").data].getD 1 []).drop j2) = false) ∧
      beginsWith hashes
        (([("-q").data, ("-j###x#").data].getD 1 []).drop 2) = true ∧
      (rewriteArg ([("-q").data, ("-j###x#").data].getD 1 []) 2
          (decStr (13 + 1))).take 2 =
        ([("-q").data, ("-j###x#").data].getD 1 []).take 2 ∧
      ((rewriteArg ([("-q").data, ("-j###x#").data].getD 1 []) 2
          (decStr (13 + 1))).drop 2).take (decStr (13 + 1)).length =
        decStr (13 + 1) ∧
      (rewriteArg ([("-q").data, ("-j###x#").data].getD 1 []) 2
          (decStr (13 + 1))).length + 3 =
        ([("-q").data, ("-j###x#").data].getD 1 []).length +
          (decStr (13 + 1)).length ∧
      (rewriteArg ([("-q").data, ("-j###x#").data].getD 1 []) 2
          (decStr (13 + 1))).drop (2 + (decStr (13 + 1)).length) =
        ([("-q").data, ("-j###x#").data].getD 1 []).drop (2 + 3)) :=
  ⟨by decide,
    c6_rewriter [("-q").data, ("-j###x#").data] 1 2 13 (by decide)⟩

/-- C7: for every invocation missing the command entirely or whose argument
vector contains no `###` marker in any argument after the command name, the
run is exactly the usage-error run: exit with `EX_USAGE`, zero tokens
drained, no fork, no environment mutation, and no bytes written back. -/
theorem c7_usage_no_side_effects (argv : List (List Char))
    (env : Option (List Char)) (channelReady : Bool) (reads : List Nat)
    (pipeOk forkOk : Bool) (writes : List WriteRes) (execOk : Bool)
    (h : argv.length < 2 ∨ find_hashes (argv.drop 2) = none) :
    main_run argv env channelReady reads pipeOk forkOk writes execOk = usageRun ∧
    usageRun.exitCode = some EX_USAGE ∧ usageRun.drained = 0 ∧
    usageRun.forked = false ∧ usageRun.envUnset = false ∧
    usageRun.parentPutBytes = 0 := by
  refine ⟨?_, rfl, rfl, rfl, rfl, rfl⟩
  unfold main_run
  by_cases h2 : argv.length < 2
  · rw [if_pos h2]
  · rw [if_neg h2]
    by_cases h3 : argv.length < 3
    · rw [if_pos h3]
    · rw [if_neg h3]
      rcases h with h | h
      · omega
      · rw [h]

theorem c7_witness :
    (([("jobhog").data, ("build").data, ("-j9").data] : List (List Char)).length < 2 ∨
      find_hashes ([("jobhog").data, ("build").data, ("-j9").data].drop 2) = none) ∧
    (main_run [("jobhog").data, ("build").data, ("-j9").data]
        (some (("--jobserver-auth=3,4").data)) true [8, 0] true true
        [WriteRes.ok 8] true = usageRun ∧
      usageRun.exitCode = some EX_USAGE ∧ usageRun.drained = 0 ∧
      usageRun.forked = false ∧ usageRun.envUnset = false ∧
      usageRun.parentPutBytes = 0) :=
  ⟨Or.inr (by decide),
    c7_usage_no_side_effects [("jobhog").data, ("build").data, ("-j9").data]
      (some (("--jobserver-auth=3,4").data)) true [8, 0] true true
      [WriteRes.ok 8] true (Or.inr (by decide))⟩

/-- C8: if `MAKEFLAGS` is absent, or neither `--jobserver-auth=` nor
`--jobserver-fds=` appears in it, or the descriptor pair fails to parse as
two decimal integers, the channel locator reports no channel; the program
then proceeds (no usage error) in degraded mode with exactly zero drained
tokens, no fork, no synchronous write-back, and substitutes the text `1`
for the marker. -/
theorem c8_degraded_env (argv : List (List Char)) (env : Option (List Char))
    (channelReady : Bool) (reads : List Nat) (pipeOk forkOk : Bool)
    (writes : List WriteRes) (execOk : Bool) (j i : Nat)
    (hp : parse_env env = none)
    (hf : find_hashes (argv.drop 2) = some (j, i)) :
    (main_run argv env channelReady reads pipeOk forkOk writes execOk).drained = 0 ∧
    (main_run argv env channelReady reads pipeOk forkOk writes execOk).tokensHeld
      = 0 ∧
    (main_run argv env channelReady reads pipeOk forkOk writes execOk).forked
      = false ∧
    (main_run argv env channelReady reads pipeOk forkOk writes
        execOk).parentPutBytes = 0 ∧
    (main_run argv env channelReady reads pipeOk forkOk writes execOk).replacement
      = ['1'] ∧
    (main_run argv env channelReady reads pipeOk forkOk writes execOk).rewrittenArg
      = some (rewriteArg ((argv.drop 2).getD j []) i ['1']) ∧
    (main_run argv env channelReady reads pipeOk forkOk writes execOk).exitCode
      ≠ some EX_USAGE ∧
    parse_env none = none ∧
    (∀ e, strstrIdx authPat e = none → strstrIdx fdsPat e = none →
      parse_env (some e) = none) := by
  have hj := find_hashes_lt (argv.drop 2) j i hf
  have h3 : ¬ argv.length < 3 := by
    simp [List.length_drop] at hj
    omega
  have h2 : ¬ argv.length < 2 := by omega
  have hone : decStr (0 + 1) = ['1'] := by decide
  have hmain : main_run argv env channelReady reads pipeOk forkOk writes execOk =
      ⟨if execOk then none else some EX_OSERR, 0, 0, false, true, 0, decStr (0 + 1),
        some (rewriteArg ((argv.drop 2).getD j []) i (decStr (0 + 1)))⟩ := by
    unfold main_run
    rw [if_neg h2, if_neg h3, hf, hp]
    rfl
  rw [hmain, hone]
  refine ⟨rfl, rfl, rfl, rfl, rfl, rfl, ?_, rfl, ?_⟩
  · cases execOk <;> simp [EX_OSERR, EX_USAGE]
  · intro e ha hb
    simp [parse_env, ha, hb]

theorem c8_witness :
    parse_env (some (("--jobserver-auth=abc").data)) = none ∧
    find_hashes (([("jobhog").data, ("build").data, ("-j###").data] :
      List (List Char)).drop 2) = some (0, 2) ∧
    ((main_run [("jobhog").data, ("build").data, ("-j###").data]
        (some (("--jobserver-auth=abc").data)) true [0] true true [] true).drained
        = 0 ∧
      (main_run [("jobhog").data, ("build").data, ("-j###").data]
        (some (("--jobserver-auth=abc").data)) true [0] true true [] true).tokensHeld
        = 0 ∧
      (main_run [("jobhog").data, ("build").data, ("-j###").data]
        (some (("--jobserver-auth=abc").data)) true [0] true true [] true).forked
        = false ∧
      (main_run [("jobhog").data, ("build").data, ("-j###").data]
        (some (("--jobserver-auth=abc").data)) true [0] true true []
        true).parentPutBytes = 0 ∧
      (main_run [("jobhog").data, ("build").data, ("-j###").data]
        (some (("--jobserver-auth=abc").data)) true [0] true true [] true).replacement
        = ['1'] ∧
      (main_run [("jobhog").data, ("build").data, ("-j###").data]
        (some (("--jobserver-auth=abc").data)) true [0] true true [] true).rewrittenArg
        = some (rewriteArg ((([("jobhog").data, ("build").data, ("-j###").data] :
          List (List Char)).drop 2).getD 0 []) 2 ['1']) ∧
      (main_run [("jobhog").data, ("build").data, ("-j###").data]
        (some (("--jobserver-auth=abc").data)) true [0] true true [] true).exitCode
        ≠ some EX_USAGE ∧
      parse_env none = none ∧
      (∀ e, strstrIdx authPat e = none → strstrIdx fdsPat e = none →
        parse_env (some e) = none)) :=
  ⟨by decide, by decide,
    c8_degraded_env [("jobhog").data, ("build").data, ("-j###").data]
      (some (("--jobserver-auth=abc").data)) true [0] true true [] true 0 2
      (by decide) (by decide)⟩

/-- C9: if creating the auxiliary pipe fails, or the fork fails, the drained
tokens are written back immediately and synchronously by the calling
process using the very same `put_tokens` chunked-write discipline as the
deferred path (exactly `t` bytes when the write loop completes, chunks of
at most 8), no watcher is spawned, and the path is not fatal — `get_tokens`
just continues with a zero result. -/
theorem c9_pipe_fork_failure_immediate_return (t : Nat) (pipeOk forkOk : Bool)
    (writes : List WriteRes)
    (hfail : pipeOk = false ∨ forkOk = false)
    (hv : validWrites writes t = true) :
    (create_child t pipeOk forkOk writes).fatal = false ∧
    (create_child t pipeOk forkOk writes).watcherSpawned = false ∧
    (create_child t pipeOk forkOk writes).ret = 0 ∧
    (create_child t pipeOk forkOk writes).parentPutBytes = (put_tokens writes t).1 ∧
    ((create_child t pipeOk forkOk writes).parentPutFinished = true →
      (create_child t pipeOk forkOk writes).parentPutBytes = t) ∧
    (∀ w ∈ (create_child t pipeOk forkOk writes).parentPutChunks, w ≤ 8) := by
  by_cases hp : pipeOk = false
  · have hcc : create_child t pipeOk forkOk writes =
        ⟨0, false, false, (put_tokens writes t).1, (put_tokens writes t).2.1,
          (put_tokens writes t).2.2, false, false, false, false⟩ := by
      unfold create_child
      rw [if_pos hp]
    rw [hcc]
    exact ⟨rfl, rfl, rfl, rfl, fun hfin => put_tokens_exact writes t hv hfin,
      fun w hw => put_tokens_chunks_le writes t w hw⟩
  · have hfk : forkOk = false := by
      rcases hfail with h | h
      · exact absurd h hp
      · exact h
    have hcc : create_child t pipeOk forkOk writes =
        ⟨0, false, false, (put_tokens writes t).1, (put_tokens writes t).2.1,
          (put_tokens writes t).2.2, true, true, false, false⟩ := by
      unfold create_child
      rw [if_neg hp, if_pos hfk]
    rw [hcc]
    exact ⟨rfl, rfl, rfl, rfl, fun hfin => put_tokens_exact writes t hv hfin,
      fun w hw => put_tokens_chunks_le writes t w hw⟩

theorem c9_witness :
    (false = false ∨ true = false) ∧
    validWrites [WriteRes.ok 8, WriteRes.ok 1] 9 = true ∧
    ((create_child 9 false true [WriteRes.ok 8, WriteRes.ok 1]).fatal = false ∧
      (create_child 9 false true [WriteRes.ok 8, WriteRes.ok 1]).watcherSpawned
        = false ∧
      (create_child 9 false true [WriteRes.ok 8, WriteRes.ok 1]).ret = 0 ∧
      (create_child 9 false true [WriteRes.ok 8, WriteRes.ok 1]).parentPutBytes
        = (put_tokens [WriteRes.ok 8, WriteRes.ok 1] 9).1 ∧
      ((create_child 9 false true [WriteRes.ok 8, WriteRes.ok 1]).parentPutFinished
          = true →
        (create_child 9 false true [WriteRes.ok 8, WriteRes.ok 1]).parentPutBytes
          = 9) ∧
      (∀ w ∈ (create_child 9 false true
          [WriteRes.ok 8, WriteRes.ok 1]).parentPutChunks, w ≤ 8)) :=
  ⟨Or.inl rfl, by decide,
    c9_pipe_fork_failure_immediate_return 9 false true
      [WriteRes.ok 8, WriteRes.ok 1] (Or.inl rfl) (by decide)⟩

/-- C10: for every physically consistent drain-loop read trace the drained
count is at most 507 (the 500 ceiling plus at most one extra 8-byte read),
hence below the 999 assertion bound; the decimal rendering of
`tokens + 1` is at most 3 characters and fits the 4-byte buffer with its
terminator; and the marker pointer found before draining still addresses a
`###` run of the selected argument, whose tail from the marker is at least
3 bytes long — so none of the assertions in `main` can fail. -/
theorem c10_drain_bound_assertions (t : Nat) (rs : List Nat)
    (hv : validReads t rs = true) (args : List (List Char)) (j i : Nat)
    (hf : find_hashes args = some (j, i)) :
    drainLoop 0 rs ≤ 507 ∧
    drainLoop 0 rs < 999 ∧
    (decStr (drainLoop 0 rs + 1)).length ≤ 3 ∧
    (decStr (drainLoop 0 rs + 1)).length + 1 ≤ 4 ∧
    beginsWith hashes ((args.getD j []).drop i) = true ∧
    i + 3 ≤ (args.getD j []).length := by
  have hb := drainLoop_le_507 rs t 0 hv (by omega)
  have hlen := decStr_len_le (drainLoop 0 rs + 1) (by omega)
  have hat := find_hashes_at args j i hf
  have hbw := strstrIdx_sound hashes (args.getD j []) i hat
  exact ⟨hb, by omega, hlen, by omega, hbw, marker_bound _ _ hbw⟩

theorem c10_witness :
    validReads 501 (List.replicate 62 8 ++ [5, 0]) = true ∧
    find_hashes [("-j###").data] = some (0, 2) ∧
    (drainLoop 0 (List.replicate 62 8 ++ [5, 0]) ≤ 507 ∧
      drainLoop 0 (List.replicate 62 8 ++ [5, 0]) < 999 ∧
      (decStr (drainLoop 0 (List.replicate 62 8 ++ [5, 0]) + 1)).length ≤ 3 ∧
      (decStr (drainLoop 0 (List.replicate 62 8 ++ [5, 0]) + 1)).length + 1 ≤ 4 ∧
      beginsWith hashes (([("-j###").data].getD 0 []).drop 2) = true ∧
      2 + 3 ≤ ([("-j###").data].getD 0 []).length) :=
  ⟨by decide, by decide,
    c10_drain_bound_assertions 501 (List.replicate 62 8 ++ [5, 0]) (by decide)
      [("-j###").data] 0 2 (by decide)⟩
